import Mathlib

/-!
# Verification of `src/raster.rs` (pix raster core)

Shallow embedding of the raster image core: the `Region` rectangle algebra,
the `Raster` pixel container, the builder construction paths, the row-major
region iterator, and `set_region`.

Modelling conventions:

* Rust `i32` values are embedded as `Int`, `u32` values as `Nat`.  Where the
  source performs a cast or an arithmetic operation that can wrap, the wrap
  is made explicit with `% 4294967296` (release-profile two-complement
  semantics; the debug profile would instead abort on overflow, which makes
  no difference to which claims hold, only to how a violation surfaces).
* `u32::try_from(i : i32).unwrap_or(0)` is exactly `Int.toNat` on the i32
  range: negative inputs give 0, others their value.
* Buffers are `List` values.  Fallible operations (index out of bounds,
  failed assertion) return `Option`, `none` standing for the abort.
* The pixel-format capability is reduced to what the core consumes: a
  default value (`Inhabited`) and a per-pixel conversion function passed
  explicitly where the source is generic over a second format.
-/

/-- `Region` from the source: signed origin, unsigned extent. -/
structure Region where
  x : Int
  y : Int
  width : Nat
  height : Nat
deriving DecidableEq

/-- Fields within the i32 / u32 ranges of the source representation. -/
def Region.Wf (r : Region) : Prop :=
  -2147483648 ≤ r.x ∧ r.x < 2147483648 ∧ -2147483648 ≤ r.y ∧ r.y < 2147483648 ∧
    r.width < 4294967296 ∧ r.height < 4294967296

instance (r : Region) : Decidable r.Wf := by
  unfold Region.Wf; infer_instance

/-- `Region::right`: the sum is formed exactly (the source widens both
operands to i64, which cannot overflow); if it is `< i32::MAX` it is the
result, otherwise the original `x` is returned. -/
def Region.right (r : Region) : Int :=
  let s := r.x + (r.width : Int)
  if s < 2147483647 then s else r.x

/-- `Region::bottom`: symmetric to `Region.right`. -/
def Region.bottom (r : Region) : Int :=
  let s := r.y + (r.height : Int)
  if s < 2147483647 then s else r.y

/-- `Region::intersection`.  The width is `(x1 - x0) as u32`: the i32
difference reinterpreted as an unsigned value, i.e. the difference modulo
2^32 (the source has no guard against `x1 < x0`). -/
def Region.intersection (a b : Region) : Region :=
  let x0 := max a.x b.x
  let x1 := min a.right b.right
  let w : Nat := ((x1 - x0) % 4294967296).toNat
  let y0 := max a.y b.y
  let y1 := min a.bottom b.bottom
  let h : Nat := ((y1 - y0) % 4294967296).toNat
  ⟨x0, y0, w, h⟩

/-- `Raster`: dimensions plus the flat row-major pixel buffer. -/
structure Raster (P : Type) where
  width : Nat
  height : Nat
  pixels : List P
deriving DecidableEq

/-- `Raster::region`: the full extent. -/
def Raster.region (r : Raster P) : Region :=
  ⟨0, 0, r.width, r.height⟩

/-- `Raster::pixel`, totalised with the default value.  The source reads
`row[x]` of the slice `pixels[y*width .. y*width+width]`; in-bounds reads
(the only ones that do not abort) agree with this function.  Which reads
abort is tracked separately, by the `readOk` predicate below. -/
def Raster.pixel [Inhabited P] (r : Raster P) (x y : Nat) : P :=
  r.pixels.getD (y * r.width + x) default

/-- A read of `(x, y)` through `Raster::pixel` stays within the slices the
source indexes (no abort) exactly when the coordinate is inside the raster
(the row slice `[y*width, y*width+width)` exists and `x < width`; for a
raster holding the length invariant this is `x < width ∧ y < height`). -/
def Raster.readOk (r : Raster P) (x y : Nat) : Prop :=
  x < r.width ∧ y < r.height

instance (r : Raster P) (x y : Nat) : Decidable (r.readOk x y) := by
  unfold Raster.readOk; infer_instance

/-- `Raster::set_pixel`: row slicing aborts unless the row slice fits the
buffer, and the write aborts unless `x < width`; otherwise the single cell
`y*width + x` is overwritten. -/
def Raster.set_pixel (r : Raster P) (x y : Nat) (p : P) : Option (Raster P) :=
  if y * r.width + r.width ≤ r.pixels.length ∧ x < r.width then
    some { r with pixels := r.pixels.set (y * r.width + x) p }
  else none

/-- `Raster::clear`: every pixel overwritten with the format default. -/
def Raster.clear [Inhabited P] (r : Raster P) : Raster P :=
  { r with pixels := r.pixels.map fun _ => default }

/-- One row of destination coordinates, left to right: the inner `for x in
x0..x1` loop of `set_region`, and one row of the iterator traversal. -/
def rowCoords (l y w : Nat) : List (Nat × Nat) :=
  (List.range w).map fun i => (l + i, y)

/-- `h` rows of coordinates starting at row `y`, row-major: the nested
`for yi in y0..y1 { for x in x0..x1 }` loops of `set_region`. -/
def gridCoords (l y w : Nat) : Nat → List (Nat × Nat)
  | 0 => []
  | h + 1 => rowCoords l y w ++ gridCoords l (y + 1) w h

/-- Write the source pixels at the listed buffer indices, in order, stopping
silently when the source runs out (`if let Some(p) = it.next()` writes
nothing once the iterator is exhausted, and the loop then does nothing). -/
def writeSeq (buf : List P) : List Nat → List P → List P
  | [], _ => buf
  | _, [] => buf
  | i :: is, p :: ps => writeSeq (buf.set i p) is ps

/-- `Raster::set_region`.  A negative `x`/`y` makes that edge the raster
width/height; the far edge is `min(width, x0 + reg.width)` with a wrapping
u32 addition; nothing happens unless both spans are non-degenerate. -/
def Raster.set_region (r : Raster P) (reg : Region) (src : List S)
    (conv : S → P) : Raster P :=
  let x0 := if 0 ≤ reg.x then reg.x.toNat else r.width
  let x1 := min r.width ((x0 + reg.width) % 4294967296)
  let y0 := if 0 ≤ reg.y then reg.y.toNat else r.height
  let y1 := min r.height ((y0 + reg.height) % 4294967296)
  if y0 < y1 ∧ x0 < x1 then
    { r with
      pixels := writeSeq r.pixels
        ((gridCoords x0 y0 (x1 - x0) (y1 - y0)).map fun c => c.2 * r.width + c.1)
        (src.map conv) }
  else r

/-- `RasterBuilder::with_color`: `(width * height) as usize` default pixels
(the u32 product wraps). -/
def RasterBuilder.with_color (width height : Nat) (clr : P) : Raster P :=
  ⟨width, height, List.replicate ((width * height) % 4294967296) clr⟩

/-- `RasterBuilder::with_clear` delegates to `with_color` at the default. -/
def RasterBuilder.with_clear (P : Type) [Inhabited P] (width height : Nat) :
    Raster P :=
  RasterBuilder.with_color width height default

/-- `RasterBuilder::with_pixels`: asserts the supplied length equals
`(width * height) as usize`, then adopts the buffer as is. -/
def RasterBuilder.with_pixels (width height : Nat) (ps : List P) :
    Option (Raster P) :=
  if (width * height) % 4294967296 = ps.length then
    some ⟨width, height, ps⟩
  else none

/-- Split a buffer into consecutive chunks of `sz` elements: the in-place
reinterpretation of a raw buffer as pixels of `sz` units each.  The sizes
that occur are positive (`size_of` of a supported pixel format); `sz = 0`
is given the harmless value `[]`. -/
def chunkList : Nat → List α → List (List α)
  | 0, _ => []
  | _ + 1, [] => []
  | s + 1, a :: as => ((a :: as).take (s + 1)) :: chunkList (s + 1) ((a :: as).drop (s + 1))
termination_by _ l => l.length
decreasing_by simp [List.length_drop]; omega

/-- `RasterBuilder::with_u8_buffer` for a format of `sz` bytes per pixel:
asserts `len * size_of::<P>() == capacity`, then reinterprets the byte
buffer in place as pixels (consecutive `sz`-byte groups). -/
def RasterBuilder.with_u8_buffer (sz width height : Nat) (buf : List α) :
    Option (Raster (List α)) :=
  if ((width * height) % 4294967296) * sz = buf.length then
    some ⟨width, height, chunkList sz buf⟩
  else none

/-- `RasterBuilder::with_u16_buffer` for a format of `sz` bytes per pixel
(`sz` even, two bytes per word): asserts
`len * size_of::<P>() == capacity * size_of::<u16>()`, then reinterprets
the word buffer in place as pixels of `sz / 2` words each. -/
def RasterBuilder.with_u16_buffer (sz width height : Nat) (buf : List α) :
    Option (Raster (List α)) :=
  if ((width * height) % 4294967296) * sz = buf.length * 2 then
    some ⟨width, height, chunkList (sz / 2) buf⟩
  else none

/-- The cursor and bounds of `RasterIter`. -/
structure IterState where
  left : Nat
  right : Nat
  bottom : Nat
  x : Nat
  y : Nat
deriving DecidableEq

/-- `RasterIter::new`: every bound passes through
`u32::try_from(_).unwrap_or(0)`, i.e. `Int.toNat`. -/
def RasterIter.new (reg : Region) : IterState :=
  let y := reg.y.toNat
  let bottom := reg.bottom.toNat
  let x := reg.x.toNat
  let right := reg.right.toNat
  ⟨x, right, bottom, x, y⟩

/-- The sequence of coordinates `RasterIter::next` reads until it returns
`None`, transcribing the body of `next` directly: on `x >= right` the
cursor wraps to `(left, y+1)` and stops if `y+1 >= bottom`; every call that
does not stop reads the current coordinate and advances `x`. -/
def runAux (left right bottom : Nat) (x y : Nat) : List (Nat × Nat) :=
  if right ≤ x then
    if bottom ≤ y + 1 then []
    else (left, y + 1) :: runAux left right bottom (left + 1) (y + 1)
  else
    (x, y) :: runAux left right bottom (x + 1) y
termination_by (bottom - y, right - x)

/-- Coordinates visited by exhausting a fresh iterator. -/
def RasterIter.run (st : IterState) : List (Nat × Nat) :=
  runAux st.left st.right st.bottom st.x st.y

/-- `Raster::region_iter` followed by exhausting the iterator: the pixel
values produced, in order. -/
def Raster.region_iter [Inhabited P] (r : Raster P) (reg : Region) : List P :=
  (RasterIter.run (RasterIter.new reg)).map fun c => r.pixel c.1 c.2

example : Region.intersection ⟨0, 0, 5, 5⟩ ⟨-5, -5, 10, 10⟩ = ⟨0, 0, 5, 5⟩ := by
  decide

example : Region.intersection ⟨0, 0, 5, 5⟩ ⟨-1, -1, 5, 5⟩ = ⟨0, 0, 4, 4⟩ := by
  decide

example : Region.intersection ⟨1, 2, 1, 3⟩ ⟨0, 0, 5, 5⟩ = ⟨1, 2, 1, 3⟩ := by
  decide

/-! ## Helper lemmas -/

theorem writeSeq_length (buf : List P) (is : List Nat) (ps : List P) :
    (writeSeq buf is ps).length = buf.length := by
  induction is generalizing buf ps with
  | nil => simp [writeSeq]
  | cons i is ih =>
    cases ps with
    | nil => simp [writeSeq]
    | cons p ps => simp [writeSeq, ih, List.length_set]

theorem chunkList_flatten (sz : Nat) (l : List α) (h : 0 < sz) :
    (chunkList sz l).flatten = l := by
  induction sz, l using chunkList.induct with
  | case1 l => omega
  | case2 s => simp [chunkList]
  | case3 s a as ih =>
    rw [chunkList]
    simp only [List.flatten_cons]
    rw [ih (Nat.succ_pos s), List.take_append_drop]

theorem rowCoords_length (l y w : Nat) : (rowCoords l y w).length = w := by
  simp [rowCoords]

theorem rowCoords_getElem? (l y w i : Nat) (hi : i < w) :
    (rowCoords l y w)[i]? = some (l + i, y) := by
  simp [rowCoords, List.getElem?_map, List.getElem?_range hi]

theorem rowCoords_succ (x y n : Nat) :
    rowCoords x y (n + 1) = (x, y) :: rowCoords (x + 1) y n := by
  have hf : (fun i => (x + Nat.succ i, y)) = (fun i => (x + 1 + i, y)) := by
    funext i
    simp only [Prod.mk.injEq, and_true]
    omega
  simp only [rowCoords, List.range_succ_eq_map, List.map_cons, List.map_map,
    Function.comp_def, hf, Nat.add_zero]

theorem gridCoords_length (l y w h : Nat) :
    (gridCoords l y w h).length = h * w := by
  induction h generalizing y with
  | zero => simp [gridCoords]
  | succ h ih =>
    simp [gridCoords, rowCoords_length, ih, Nat.succ_mul]
    omega

theorem gridCoords_getElem? (l w : Nat) :
    ∀ y h i j, i < w → j < h →
      (gridCoords l y w h)[j * w + i]? = some (l + i, y + j) := by
  intro y h i j
  induction j generalizing y h with
  | zero =>
    intro hi hj
    cases h with
    | zero => omega
    | succ h =>
      rw [gridCoords, List.getElem?_append]
      rw [if_pos (by simpa [rowCoords_length] using hi)]
      simpa using rowCoords_getElem? l y w i hi
  | succ j ih =>
    intro hi hj
    cases h with
    | zero => omega
    | succ h =>
      rw [gridCoords, List.getElem?_append_right (by simp [rowCoords_length]; nlinarith)]
      rw [rowCoords_length]
      have harith : (j + 1) * w + i - w = j * w + i := by
        have : (j + 1) * w = j * w + w := by ring
        omega
      rw [harith, ih (y + 1) h hi (by omega)]
      simp only [Option.some.injEq, Prod.mk.injEq, true_and]
      omega

theorem runAux_row (l r b y : Nat) :
    ∀ n x, x + n = r →
      runAux l r b x y = rowCoords x y n ++ runAux l r b r y := by
  intro n
  induction n with
  | zero =>
    intro x hx
    have hxr : x = r := by omega
    simp only [rowCoords, List.range_zero, List.map_nil, List.nil_append, hxr]
  | succ n ih =>
    intro x hx
    rw [runAux, if_neg (by omega), ih (x + 1) (by omega), rowCoords_succ]
    rfl

theorem runAux_wrap (l r b y : Nat) (hlr : l < r) :
    runAux l r b r y = if b ≤ y + 1 then [] else runAux l r b l (y + 1) := by
  rw [runAux, if_pos (le_refl r)]
  by_cases hb : b ≤ y + 1
  · rw [if_pos hb, if_pos hb]
  · rw [if_neg hb, if_neg hb]
    conv_rhs => rw [runAux]
    rw [if_neg (by omega)]

theorem runAux_grid (l r b : Nat) (hlr : l < r) :
    ∀ n y, y < b → b - y = n → runAux l r b l y = gridCoords l y (r - l) n := by
  intro n
  induction n with
  | zero => intro y hy hn; omega
  | succ n ih =>
    intro y hy hn
    rw [runAux_row l r b y (r - l) l (by omega), runAux_wrap l r b y hlr]
    by_cases hb : b ≤ y + 1
    · rw [if_pos hb]
      have hn0 : n = 0 := by omega
      subst hn0
      simp [gridCoords]
    · rw [if_neg hb, ih (y + 1) (by omega) (by omega)]
      simp [gridCoords]

theorem runAux_bounds (W H l r b : Nat) (hr : r ≤ W) (hb : b ≤ H) (hl : l < W) :
    ∀ x y, (x < r → y < H) →
    ∀ c ∈ runAux l r b x y, c.1 < W ∧ c.2 < H := by
  refine runAux.induct l r b
    (fun x y => (x < r → y < H) → ∀ c ∈ runAux l r b x y, c.1 < W ∧ c.2 < H)
    ?_ ?_ ?_
  · intro x y h1 h2 _ c hc
    rw [runAux, if_pos h1, if_pos h2] at hc
    simp at hc
  · intro x y h1 h2 ih hxy c hc
    rw [runAux, if_pos h1, if_neg h2] at hc
    rcases List.mem_cons.mp hc with h | h
    · subst h; exact ⟨hl, by omega⟩
    · exact ih (fun _ => by omega) c h
  · intro x y h1 ih hxy c hc
    rw [runAux, if_neg h1] at hc
    rcases List.mem_cons.mp hc with h | h
    · subst h; exact ⟨by omega, hxy (by omega)⟩
    · exact ih (fun hx => hxy (by omega)) c h

/-! ## Claim theorems -/

/-- C1 (evaluation at the failing input): the regions `(0,0,5,5)` and
`(10,0,5,5)` are geometrically disjoint — the smaller right side is at or
left of the larger x — yet `intersection` returns width 4294967291 and
height 5, not an empty region: `(x1 - x0) as u32` wraps the negative
difference instead of clamping it to 0 as the claim states. -/
theorem c1_disjoint_intersection_not_empty :
    min (Region.right ⟨0, 0, 5, 5⟩) (Region.right ⟨10, 0, 5, 5⟩) ≤
      max (Region.mk 0 0 5 5).x (Region.mk 10 0 5 5).x ∧
    Region.intersection ⟨0, 0, 5, 5⟩ ⟨10, 0, 5, 5⟩ = ⟨10, 0, 4294967291, 5⟩ ∧
    (4294967291 : Nat) ≠ 0 ∧ (5 : Nat) ≠ 0 := by
  decide

/-- C6 (amended): `right` returns `x + width` when the exact sum is
strictly below `i32::MAX = 2147483647`, and returns the original `x`
whenever the sum is at or above that value — so saturation also fires when
the sum equals the maximum exactly, not only on genuine overflow.  In both
cases the result never wraps: it stays in `[x, 2147483648)`.  `bottom` is
symmetric. -/
theorem c6_right_bottom_saturation (r : Region) (hwf : r.Wf) :
    ((r.x + (r.width : Int) < 2147483647 → r.right = r.x + (r.width : Int)) ∧
      (2147483647 ≤ r.x + (r.width : Int) → r.right = r.x) ∧
      r.x ≤ r.right ∧ r.right < 2147483648) ∧
    ((r.y + (r.height : Int) < 2147483647 → r.bottom = r.y + (r.height : Int)) ∧
      (2147483647 ≤ r.y + (r.height : Int) → r.bottom = r.y) ∧
      r.y ≤ r.bottom ∧ r.bottom < 2147483648) := by
  obtain ⟨h1, h2, h3, h4, h5, h6⟩ := hwf
  simp only [Region.right, Region.bottom]
  split <;> split <;> omega

/-- C6 witness: a region with no saturation in range. -/
theorem c6_witness :
    (Region.mk 3 4 10 20).Wf ∧ Region.right ⟨3, 4, 10, 20⟩ = 13 := by
  refine ⟨by decide, ?_⟩
  have h := (c6_right_bottom_saturation ⟨3, 4, 10, 20⟩ (by decide)).1.1
    (by decide)
  rw [h]
  decide

/-- C6 counterexample: at `x = 0`, `width = 2147483647` the exact sum is
`2147483647`, which does not overflow the signed 32-bit range, yet `right`
returns `0`, not `x + width` as the claim requires. -/
theorem c6_cex_exact_max :
    Region.right ⟨0, 0, 2147483647, 0⟩ = 0 ∧
    (0 : Int) + ((2147483647 : Nat) : Int) ≤ 2147483647 ∧
    (0 : Int) ≠ 0 + ((2147483647 : Nat) : Int) := by
  decide

/-- C7 (amended): self-intersection is the identity for every region whose
`right` and `bottom` do not saturate, i.e. whose `x + width` and
`y + height` stay strictly below `i32::MAX`. -/
theorem c7_self_intersection (r : Region) (hwf : r.Wf)
    (hx : r.x + (r.width : Int) < 2147483647)
    (hy : r.y + (r.height : Int) < 2147483647) :
    r.intersection r = r := by
  obtain ⟨h1, h2, h3, h4, h5, h6⟩ := hwf
  have hr : r.right = r.x + (r.width : Int) := by
    simp only [Region.right]
    rw [if_pos hx]
  have hb : r.bottom = r.y + (r.height : Int) := by
    simp only [Region.bottom]
    rw [if_pos hy]
  have hw' : ((r.x + (r.width : Int) - r.x) % 4294967296).toNat = r.width := by
    have he : r.x + (r.width : Int) - r.x = (r.width : Int) := by ring
    rw [he, Int.emod_eq_of_lt (Int.natCast_nonneg _) (by exact_mod_cast h5)]
    exact Int.toNat_natCast r.width
  have hh' : ((r.y + (r.height : Int) - r.y) % 4294967296).toNat = r.height := by
    have he : r.y + (r.height : Int) - r.y = (r.height : Int) := by ring
    rw [he, Int.emod_eq_of_lt (Int.natCast_nonneg _) (by exact_mod_cast h6)]
    exact Int.toNat_natCast r.height
  simp only [Region.intersection, hr, hb, max_self, min_self, hw', hh']

/-- C7 witness: a concrete non-saturating region. -/
theorem c7_witness :
    ((Region.mk 7 (-3) 40 50).Wf ∧
      (7 : Int) + ((40 : Nat) : Int) < 2147483647) ∧
    Region.intersection ⟨7, -3, 40, 50⟩ ⟨7, -3, 40, 50⟩ = ⟨7, -3, 40, 50⟩ :=
  ⟨⟨by decide, by decide⟩,
    c7_self_intersection ⟨7, -3, 40, 50⟩ (by decide) (by decide) (by decide)⟩

/-- C7 counterexample: a region whose `right` saturates is not a fixed point
of self-intersection — the computed width collapses to 0. -/
theorem c7_cex_saturated :
    Region.intersection ⟨0, 0, 2147483647, 5⟩ ⟨0, 0, 2147483647, 5⟩ ≠
      ⟨0, 0, 2147483647, 5⟩ := by
  decide

/-- C9 (amended): as long as `width * height` does not overflow u32,
`with_clear` builds a raster whose buffer has exactly `width * height`
pixels, all equal to the format default. -/
theorem c9_with_clear_default (P : Type) [Inhabited P] (width height : Nat)
    (hno : width * height < 4294967296) :
    (RasterBuilder.with_clear P width height).pixels.length = width * height ∧
    ∀ p ∈ (RasterBuilder.with_clear P width height).pixels, p = default := by
  unfold RasterBuilder.with_clear RasterBuilder.with_color
  constructor
  · simp [Nat.mod_eq_of_lt hno]
  · intro p hp
    exact List.eq_of_mem_replicate hp

/-- C9 witness: a concrete 3 by 2 raster. -/
theorem c9_witness :
    3 * 2 < 4294967296 ∧
    (RasterBuilder.with_clear Nat 3 2).pixels.length = 3 * 2 :=
  ⟨by decide, (c9_with_clear_default Nat 3 2 (by decide)).1⟩

/-- C9 counterexample: at `width = height = 65536` the u32 product wraps to
0, so the buffer is empty instead of holding `width * height` pixels. -/
theorem c9_cex_overflow :
    (RasterBuilder.with_clear Nat 65536 65536).pixels.length = 0 ∧
    (0 : Nat) ≠ 65536 * 65536 := by
  constructor
  · show (List.replicate ((65536 * 65536) % 4294967296) (default : Nat)).length = 0
    norm_num
  · decide

/-- C4: a fully off-raster region — `x` negative or at least the raster
width, or `y` negative or at least the raster height — makes `set_region`
return the raster unchanged: the destination rectangle is empty on that
axis, so the write loop never runs and no pixel is modified. -/
theorem c4_set_region_off_raster_noop {P S : Type} (r : Raster P)
    (reg : Region) (src : List S) (conv : S → P)
    (hoff : reg.x < 0 ∨ (r.width : Int) ≤ reg.x ∨ reg.y < 0 ∨
      (r.height : Int) ≤ reg.y) :
    r.set_region reg src conv = r := by
  simp only [Raster.set_region]
  split_ifs <;> first
    | rfl
    | (exfalso
       omega)

/-- C4 witness: the spec scenario — `set_region((10,10,1,1), …)` on a 4 by 4
raster is a no-op. -/
theorem c4_witness :
    ((10 : Int) < 0 ∨ ((RasterBuilder.with_clear Nat 4 4).width : Int) ≤ 10 ∨
      (10 : Int) < 0 ∨ ((RasterBuilder.with_clear Nat 4 4).height : Int) ≤ 10) ∧
    (RasterBuilder.with_clear Nat 4 4).set_region ⟨10, 10, 1, 1⟩
        ([69] : List Nat) id = RasterBuilder.with_clear Nat 4 4 :=
  ⟨by decide,
    c4_set_region_off_raster_noop (RasterBuilder.with_clear Nat 4 4)
      ⟨10, 10, 1, 1⟩ [69] id (by decide)⟩

/-- C10: each mutating operation — `set_pixel` (whenever it completes),
`set_region` with any region and any source, and `clear` — leaves the
raster width, height and pixel-buffer length unchanged, so the length
invariant established at construction is preserved by all mutation. -/
theorem c10_mutation_preserves_shape {P S : Type} [Inhabited P]
    (r r' : Raster P) (x y : Nat) (p : P) (reg : Region) (src : List S)
    (conv : S → P) :
    (r.set_pixel x y p = some r' →
      r'.width = r.width ∧ r'.height = r.height ∧
        r'.pixels.length = r.pixels.length) ∧
    ((r.set_region reg src conv).width = r.width ∧
      (r.set_region reg src conv).height = r.height ∧
      (r.set_region reg src conv).pixels.length = r.pixels.length) ∧
    (r.clear.width = r.width ∧ r.clear.height = r.height ∧
      r.clear.pixels.length = r.pixels.length) := by
  refine ⟨?_, ?_, ?_⟩
  · intro hsome
    rw [Raster.set_pixel] at hsome
    split at hsome
    · rw [Option.some.injEq] at hsome
      subst hsome
      simp [List.length_set]
    · cases hsome
  · simp only [Raster.set_region]
    split_ifs <;> simp [writeSeq_length]
  · simp [Raster.clear]

/-- C10 witness: a concrete in-bounds `set_pixel` on a 2 by 2 raster. -/
theorem c10_witness :
    (RasterBuilder.with_clear Nat 2 2).set_pixel 0 0 7 =
      some ⟨2, 2, [7, 0, 0, 0]⟩ ∧
    ((Raster.mk 2 2 [7, 0, 0, 0] : Raster Nat).width =
        (RasterBuilder.with_clear Nat 2 2).width ∧
      (Raster.mk 2 2 [7, 0, 0, 0] : Raster Nat).height =
        (RasterBuilder.with_clear Nat 2 2).height ∧
      (Raster.mk 2 2 [7, 0, 0, 0] : Raster Nat).pixels.length =
        (RasterBuilder.with_clear Nat 2 2).pixels.length) :=
  ⟨by decide,
    (c10_mutation_preserves_shape (RasterBuilder.with_clear Nat 2 2)
      ⟨2, 2, [7, 0, 0, 0]⟩ 0 0 7 ⟨0, 0, 1, 1⟩ ([] : List Nat) id).1
      (by decide)⟩

/-- C8 (amended): for dimensions whose u32 product does not wrap, each
buffer-taking construction path succeeds exactly when the supplied length
matches — `with_pixels` iff the pixel count is `width * height`,
`with_u8_buffer` iff the byte count is `width * height * size_of(P)`, and
`with_u16_buffer` iff the byte count (twice the word count) is
`width * height * size_of(P)` — and on success the raster buffer holds
exactly the supplied data: `with_pixels` adopts the list as is, and the
reinterpreting paths hold chunkings that flatten back to the input. -/
theorem c8_buffer_construction_exact {P α : Type} (width height sz : Nat)
    (hno : width * height < 4294967296) (hsz : 0 < sz) (heven : sz % 2 = 0) :
    (∀ ps : List P, (∃ r, RasterBuilder.with_pixels width height ps = some r) ↔
      ps.length = width * height) ∧
    (∀ (ps : List P) r, RasterBuilder.with_pixels width height ps = some r →
      r.pixels = ps) ∧
    (∀ buf : List α,
      (∃ r, RasterBuilder.with_u8_buffer sz width height buf = some r) ↔
        buf.length = width * height * sz) ∧
    (∀ (buf : List α) r,
      RasterBuilder.with_u8_buffer sz width height buf = some r →
        r.pixels.flatten = buf) ∧
    (∀ buf : List α,
      (∃ r, RasterBuilder.with_u16_buffer sz width height buf = some r) ↔
        2 * buf.length = width * height * sz) ∧
    (∀ (buf : List α) r,
      RasterBuilder.with_u16_buffer sz width height buf = some r →
        r.pixels.flatten = buf) := by
  have hmod : (width * height) % 4294967296 = width * height :=
    Nat.mod_eq_of_lt hno
  refine ⟨?_, ?_, ?_, ?_, ?_, ?_⟩
  · intro ps
    rw [RasterBuilder.with_pixels, hmod]
    split
    · next hc => exact ⟨fun _ => hc.symm, fun _ => ⟨_, rfl⟩⟩
    · next hc =>
        exact ⟨fun hex => absurd (Exists.choose_spec hex) (by simp),
          fun hl => absurd hl.symm hc⟩
  · intro ps r hr
    rw [RasterBuilder.with_pixels] at hr
    split at hr
    · rw [Option.some.injEq] at hr
      subst hr
      rfl
    · cases hr
  · intro buf
    rw [RasterBuilder.with_u8_buffer, hmod]
    split
    · next hc => exact ⟨fun _ => hc.symm, fun _ => ⟨_, rfl⟩⟩
    · next hc =>
        exact ⟨fun hex => absurd (Exists.choose_spec hex) (by simp),
          fun hl => absurd hl.symm hc⟩
  · intro buf r hr
    rw [RasterBuilder.with_u8_buffer] at hr
    split at hr
    · rw [Option.some.injEq] at hr
      subst hr
      exact chunkList_flatten sz buf hsz
    · cases hr
  · intro buf
    rw [RasterBuilder.with_u16_buffer, hmod]
    split
    · next hc => exact ⟨fun _ => by omega, fun _ => ⟨_, rfl⟩⟩
    · next hc =>
        exact ⟨fun hex => absurd (Exists.choose_spec hex) (by simp),
          fun hl => absurd (by omega : width * height * sz = buf.length * 2) hc⟩
  · intro buf r hr
    rw [RasterBuilder.with_u16_buffer] at hr
    split at hr
    · rw [Option.some.injEq] at hr
      subst hr
      exact chunkList_flatten (sz / 2) buf (by omega)
    · cases hr

/-- C8 witness: a 2 by 1 raster of 2-byte pixels built from 4 bytes; the
chunked buffer flattens back to the input. -/
theorem c8_witness :
    (2 * 1 < 4294967296 ∧ 0 < 2 ∧ 2 % 2 = 0) ∧
    RasterBuilder.with_u8_buffer 2 2 1 ([10, 20, 30, 40] : List Nat) =
      some ⟨2, 1, chunkList 2 [10, 20, 30, 40]⟩ ∧
    (Raster.mk 2 1 (chunkList 2 ([10, 20, 30, 40] : List Nat))).pixels.flatten =
      [10, 20, 30, 40] :=
  ⟨⟨by decide, by decide, by decide⟩, rfl,
    (@c8_buffer_construction_exact Nat Nat 2 1 2 (by decide) (by decide)
      (by decide)).2.2.2.1 [10, 20, 30, 40] ⟨2, 1, chunkList 2 [10, 20, 30, 40]⟩
      rfl⟩

/-- C8 counterexample: at `width = height = 65536` the u32 product wraps to
0, so `with_pixels` accepts an empty pixel list even though its length is
not `width * height` — construction succeeds where the claim requires
immediate failure. -/
theorem c8_cex_overflow :
    RasterBuilder.with_pixels 65536 65536 ([] : List Nat) =
      some ⟨65536, 65536, []⟩ ∧
    ([] : List Nat).length ≠ 65536 * 65536 := by
  constructor
  · rfl
  · decide

/-- C2 (evaluation at the failing input): on a 3 by 3 cleared raster, the
region `(0,0,3,0)` has height 0 — the claim requires the iterator to yield
nothing — yet exhausting it yields the whole first row: `next` only tests
the bounds in its wrap branch, so with `x < right` it reads and yields
`pixel(0,0)` on the very first call. -/
theorem c2_zero_height_region_yields_pixels :
    (Region.mk 0 0 3 0).height = 0 ∧
    (RasterBuilder.with_clear Nat 3 3).region_iter ⟨0, 0, 3, 0⟩ = [0, 0, 0] := by
  refine ⟨rfl, ?_⟩
  have hrun : RasterIter.run (RasterIter.new ⟨0, 0, 3, 0⟩) =
      [(0, 0), (1, 0), (2, 0)] := by
    show runAux 0 3 0 0 0 = [(0, 0), (1, 0), (2, 0)]
    rw [runAux, if_neg (by omega)]
    rw [runAux, if_neg (by omega)]
    rw [runAux, if_neg (by omega)]
    rw [runAux, if_pos (by omega), if_pos (by omega)]
  rw [Raster.region_iter, hrun]
  decide

/-- C3 counterexample: the region `(0,0,5,5)` on a 3 by 3 raster makes the
iterator read coordinate `(3,0)`, which is outside the raster — the read
faults instead of being clipped. -/
theorem c3_cex_oversized_region_reads_outside :
    ((3 : Nat), (0 : Nat)) ∈ RasterIter.run (RasterIter.new ⟨0, 0, 5, 5⟩) ∧
    ¬ (RasterBuilder.with_clear Nat 3 3).readOk 3 0 := by
  constructor
  · show ((3 : Nat), (0 : Nat)) ∈ runAux 0 5 5 0 0
    rw [runAux_grid 0 5 5 (by omega) 5 0 (by omega) (by omega)]
    decide
  · decide

/-- C3 (amended): negative region coordinates are clamped to 0 when the
iterator is built, and provided the clamped region lies inside the raster —
clamped origin strictly inside, clamped `right`/`bottom` at most the raster
extent — every coordinate the iterator reads is within
`[0,width) x [0,height)`, so exhausting it never faults.  (Without that
proviso reads can fall outside the raster; see the counterexample.) -/
theorem c3_region_iter_reads_in_bounds {P : Type} [Inhabited P]
    (r : Raster P) (reg : Region)
    (hx : reg.x.toNat < r.width) (hy : reg.y.toNat < r.height)
    (hr : reg.right.toNat ≤ r.width) (hb : reg.bottom.toNat ≤ r.height) :
    ∀ c ∈ RasterIter.run (RasterIter.new reg), r.readOk c.1 c.2 := by
  intro c hc
  have hc' : c ∈ runAux reg.x.toNat reg.right.toNat reg.bottom.toNat
      reg.x.toNat reg.y.toNat := hc
  exact runAux_bounds r.width r.height reg.x.toNat reg.right.toNat
    reg.bottom.toNat hr hb hx reg.x.toNat reg.y.toNat (fun _ => hy) c hc'

/-- C3 witness: region `(0,0,2,2)` inside a 3 by 3 raster; the read of
`(1,1)` is in bounds. -/
theorem c3_witness :
    ((Region.mk 0 0 2 2).x.toNat < (RasterBuilder.with_clear Nat 3 3).width ∧
      (Region.mk 0 0 2 2).y.toNat < (RasterBuilder.with_clear Nat 3 3).height ∧
      (Region.mk 0 0 2 2).right.toNat ≤
        (RasterBuilder.with_clear Nat 3 3).width ∧
      (Region.mk 0 0 2 2).bottom.toNat ≤
        (RasterBuilder.with_clear Nat 3 3).height) ∧
    (RasterBuilder.with_clear Nat 3 3).readOk 1 1 := by
  refine ⟨⟨by decide, by decide, by decide, by decide⟩, ?_⟩
  have hmem : ((1 : Nat), (1 : Nat)) ∈
      RasterIter.run (RasterIter.new ⟨0, 0, 2, 2⟩) := by
    show ((1 : Nat), (1 : Nat)) ∈ runAux 0 2 2 0 0
    rw [runAux_grid 0 2 2 (by omega) 2 0 (by omega) (by omega)]
    decide
  exact c3_region_iter_reads_in_bounds (RasterBuilder.with_clear Nat 3 3)
    ⟨0, 0, 2, 2⟩ (by decide) (by decide) (by decide) (by decide) (1, 1) hmem

/-- C5 (amended): for a non-empty region lying fully inside the raster,
with the additional proviso that `x + width` and `y + height` stay strictly
below `i32::MAX` (so that `right`/`bottom` do not saturate — automatic for
any raster whose dimensions are below that bound), the iterator yields
exactly `width * height` pixels in row-major order: the entry at position
`j * width + i` is `pixel(x+i, y+j)`. -/
theorem c5_region_iter_row_major {P : Type} [Inhabited P] (r : Raster P)
    (x y w h : Nat) (hw : 0 < w) (hh : 0 < h)
    (hxw : x + w ≤ r.width) (hyh : y + h ≤ r.height)
    (hsx : x + w < 2147483647) (hsy : y + h < 2147483647) :
    (r.region_iter ⟨(x : Int), (y : Int), w, h⟩).length = w * h ∧
    ∀ i j, i < w → j < h →
      (r.region_iter ⟨(x : Int), (y : Int), w, h⟩)[j * w + i]? =
        some (r.pixel (x + i) (y + j)) := by
  have hnew : RasterIter.new ⟨(x : Int), (y : Int), w, h⟩ =
      ⟨x, x + w, y + h, x, y⟩ := by
    simp only [RasterIter.new, Region.right, Region.bottom, IterState.mk.injEq]
    refine ⟨by omega, ?_, ?_, by omega, by omega⟩
    · rw [if_pos (by omega)]
      omega
    · rw [if_pos (by omega)]
      omega
  have hrun : RasterIter.run (RasterIter.new ⟨(x : Int), (y : Int), w, h⟩) =
      gridCoords x y w h := by
    rw [hnew]
    have hg := runAux_grid x (x + w) (y + h) (by omega) h y (by omega) (by omega)
    rw [show x + w - x = w from by omega] at hg
    exact hg
  rw [Raster.region_iter, hrun]
  constructor
  · rw [List.length_map, gridCoords_length, Nat.mul_comm]
  · intro i j hi hj
    rw [List.getElem?_map, gridCoords_getElem? x w y h i j hi hj]
    rfl

/-- C5 witness: the 2 by 2 region at `(1,1)` of a 3 by 3 cleared raster. -/
theorem c5_witness :
    (0 < 2 ∧ 1 + 2 ≤ (RasterBuilder.with_clear Nat 3 3).width ∧
      1 + 2 < 2147483647) ∧
    ((RasterBuilder.with_clear Nat 3 3).region_iter ⟨1, 1, 2, 2⟩).length =
      2 * 2 ∧
    ((RasterBuilder.with_clear Nat 3 3).region_iter ⟨1, 1, 2, 2⟩)[1 * 2 + 1]? =
      some ((RasterBuilder.with_clear Nat 3 3).pixel (1 + 1) (1 + 1)) := by
  have hmain := c5_region_iter_row_major (RasterBuilder.with_clear Nat 3 3)
    1 1 2 2 (by decide) (by decide) (by decide) (by decide) (by decide)
    (by decide)
  refine ⟨⟨by decide, by decide, by decide⟩, ?_, ?_⟩
  · exact_mod_cast hmain.1
  · exact_mod_cast hmain.2 1 1 (by decide) (by decide)

/-- C5 counterexample: a raster of width 2147483647 with the full region
`(0,0,2147483647,1)` — non-empty and fully inside — yields 0 pixels, not
`width * height`: `right` saturates to `x`, so the iterator sees `right = 0`
and stops at once. -/
theorem c5_cex_saturating_extent :
    (RasterBuilder.with_clear Nat 2147483647 1).width = 2147483647 ∧
    ((RasterBuilder.with_clear Nat 2147483647 1).region_iter
        ⟨0, 0, 2147483647, 1⟩).length = 0 ∧
    (0 : Nat) ≠ 2147483647 * 1 := by
  refine ⟨rfl, ?_, by decide⟩
  have hrun : RasterIter.run (RasterIter.new ⟨0, 0, 2147483647, 1⟩) = [] := by
    show runAux 0 0 1 0 0 = []
    rw [runAux, if_pos (by omega), if_pos (by omega)]
  rw [Raster.region_iter, hrun]
  rfl
